import Mathlib

/-!
Verification of the opticode client-side session-persistence layer.

The development shallowly embeds the storage module (`mockDb` in
`frontend/mockStorage.ts`), the result-classifier helpers of the optimizer
page (`hasRealL1Changes`, `alreadyOptimal`) and the session-hydration
effect of the optimizer page, and proves the testable properties of the spec
about them.

Modelling conventions:
  - The two persisted collections live under two localStorage keys as JSON
    arrays.  For the collection-level operations the store is modelled
    post-serialisation: a `StoreState` holds the two decoded lists (JSON
    round-tripping `parse (stringify l) = l` justifies this).  The raw
    serialised layer, where a payload may be absent or malformed, is
    modelled separately (`RawStore`) for the read-path claims.
  - JavaScript `x || y` on strings/optional strings is falsy-aware: it
    yields `y` when `x` is `undefined` or the empty string (`jsStrOr`).
  - A JavaScript `Map` built from a list of key/value pairs keeps, for each
    key, the value of the last pair with that key; `AssocMap.insert`
    mirrors the overwrite-on-duplicate behaviour.
-/

namespace Opticode

/-- Optimization level enum from `types.ts`. -/
inductive OptimizationLevel where
  | LEVEL_1
  | LEVEL_2
deriving DecidableEq, Repr

/-- Code metrics record from `types.ts`. -/
structure CodeMetrics where
  cyclomaticComplexity : Nat
  linesOfCode : Nat
  maintainabilityIndex : Nat
  estimatedSpeedup : String
deriving DecidableEq, Repr

/-- Kind of a single change entry from `types.ts`. -/
inductive ChangeKind where
  | improvement
  | removal
  | replacement
deriving DecidableEq, Repr

/-- One entry of the `changes` list from `types.ts`. -/
structure CodeChange where
  line : Nat
  description : String
  kind : ChangeKind
deriving DecidableEq, Repr

/-- The `OptimizationResult` record from `types.ts`: one persisted
optimization run.  `id` and `name` are optional in the source
(`id?: string`, `name?: string`). -/
structure OptimizationResult where
  originalCode : String
  optimizedCode : String
  explanation : String
  metrics : CodeMetrics
  changes : List CodeChange
  level : OptimizationLevel
  timestamp : Nat
  id : Option String
  name : Option String
deriving DecidableEq, Repr

/-- JavaScript `x || d` on an optional string: falsy (absent or empty)
falls through to the default. -/
def jsStrOr (x : Option String) (d : String) : String :=
  match x with
  | none => d
  | some s => if s = "" then d else s

/-- The decoded contents of the two storage keys: the history collection
(`opticode_projects_history`) and the library collection
(`opticode_saved_snippets`), each a JSON array of records. -/
structure StoreState where
  history : List OptimizationResult
  saved : List OptimizationResult
deriving DecidableEq, Repr

/-- Model of `mockDb.getHistory` on a well-formed store: the decoded history list. -/
def getHistory (st : StoreState) : List OptimizationResult :=
  st.history

/-- Model of `mockDb.getSavedSnippets` on a well-formed store: the decoded library
list. -/
def getSavedSnippets (st : StoreState) : List OptimizationResult :=
  st.saved

/-- Model of `mockDb.saveToHistory` from `mockStorage.ts`: chooses
`id = data.id || <generated token>` and `name = data.name || "Session-" ++ id`,
prepends the finalized record to the history array, and returns it.  The
random token `Math.random().toString(36).substring(2, 9)` is passed in as
the parameter `gen`. -/
def saveToHistory (gen : String) (data : OptimizationResult) (st : StoreState) :
    OptimizationResult × StoreState :=
  let theId := jsStrOr data.id gen
  let theName := jsStrOr data.name ("Session-" ++ theId)
  let itemWithId := { data with id := some theId, name := some theName }
  (itemWithId, { st with history := itemWithId :: st.history })

/-- Model of `mockDb.updateProjectName` from `mockStorage.ts`: maps over both
collections, replacing `name` on every record whose `id` matches, and
writes both back. -/
def updateProjectName (st : StoreState) (targetId : String) (newName : String) :
    StoreState :=
  { history := st.history.map fun item =>
      if item.id = some targetId then { item with name := some newName } else item,
    saved := st.saved.map fun item =>
      if item.id = some targetId then { item with name := some newName } else item }

/-- Model of `mockDb.saveToProfile` from `mockStorage.ts`: a no-op when some library
record has the same `id` (JavaScript `===` on two possibly-undefined ids),
otherwise prepends the record to the library array. -/
def saveToProfile (data : OptimizationResult) (st : StoreState) : StoreState :=
  if (st.saved.find? fun item => item.id = data.id).isSome then st
  else { st with saved := data :: st.saved }

/-- Model of `mockDb.deleteSnippet` from `mockStorage.ts`: filters the record with
the given id out of both collections and writes both back. -/
def deleteSnippet (st : StoreState) (targetId : String) : StoreState :=
  { history := st.history.filter fun item => item.id ≠ some targetId,
    saved := st.saved.filter fun item => item.id ≠ some targetId }

/-- Association-list model of a JavaScript `Map` with `Option String` keys
(a record without an id contributes the key `undefined`). -/
abbrev AssocMap : Type :=
  List (Option String × OptimizationResult)

/-- JavaScript `Map.set`: overwrite the value in place when the key is
present, append a fresh entry otherwise. -/
def AssocMap.insert (m : AssocMap) (k : Option String) (v : OptimizationResult) :
    AssocMap :=
  if m.any fun p => p.1 = k then
    m.map fun p => if p.1 = k then (k, v) else p
  else m ++ [(k, v)]

/-- JavaScript `Map.get`. -/
def AssocMap.get (m : AssocMap) (k : Option String) : Option OptimizationResult :=
  (m.find? fun p => p.1 = k).map Prod.snd

/-- The `new Map(allItems.map(item => [item.id, item]))` construction of
`mockDb.getById`. -/
def buildMap (items : List OptimizationResult) : AssocMap :=
  items.foldl (fun m item => m.insert item.id item) []

/-- Model of `mockDb.getById` from `mockStorage.ts`: concatenates history and
library, builds a `Map` keyed by id (later entries overwrite earlier ones)
and looks the id up. -/
def getById (st : StoreState) (targetId : String) : Option OptimizationResult :=
  (buildMap (st.history ++ st.saved)).get (some targetId)

/-! ### Raw serialised layer

The read path of the storage module is
`const rawData = localStorage.getItem(KEY); return rawData ? JSON.parse(rawData) : [];`.
A stored string is modelled abstractly by whether it is in the image of
`JSON.stringify` on a record array (`wellFormed l`, which `JSON.parse`
decodes back to `l`) or not (`malformed s`, on which `JSON.parse` throws a
`SyntaxError`). -/

/-- A string stored under one of the collection keys. -/
inductive StoredPayload where
  | wellFormed (l : List OptimizationResult)
  | malformed (s : String)
deriving DecidableEq, Repr

/-- The raw localStorage view of the two collection keys:
`localStorage.getItem` yields `null` (here `none`) or the stored string. -/
structure RawStore where
  history : Option StoredPayload
  saved : Option StoredPayload
deriving DecidableEq, Repr

/-- Model of `JSON.parse` on a stored payload: decodes a well-formed payload, throws
on a malformed one. -/
def jsonParse (p : StoredPayload) : Except String (List OptimizationResult) :=
  match p with
  | .wellFormed l => .ok l
  | .malformed s => .error ("SyntaxError while parsing " ++ s)

/-- JavaScript truthiness of a stored payload string: only the empty string
is falsy.  A well-formed payload is the output of `JSON.stringify` on an
array, which is never empty (at least `[]`), hence always truthy. -/
def payloadTruthy (p : StoredPayload) : Bool :=
  match p with
  | .wellFormed _ => true
  | .malformed s => s ≠ ""

/-- Model of `mockDb.getHistory` on the raw store: `rawData ? JSON.parse(rawData) : []`.
The guard is a falsiness check, so an absent payload and a stored empty
string both read as `[]`; a truthy payload is parsed with no surrounding
try/catch, so a parse failure escapes to the caller. -/
def rawGetHistory (st : RawStore) : Except String (List OptimizationResult) :=
  match st.history with
  | none => .ok []
  | some rawData => if payloadTruthy rawData then jsonParse rawData else .ok []

/-- Model of `mockDb.getSavedSnippets` on the raw store: same shape as
`rawGetHistory` over the library key, including the falsiness guard. -/
def rawGetSavedSnippets (st : RawStore) : Except String (List OptimizationResult) :=
  match st.saved with
  | none => .ok []
  | some rawData => if payloadTruthy rawData then jsonParse rawData else .ok []

/-! ### Result classifier (optimizer page) -/

/-- The sentinel phrase `NO_CHANGE_SENTINEL` of the optimizer page. -/
def NO_CHANGE_SENTINEL : String :=
  "no rule-based optimizations applicable"

/-- JavaScript `String.prototype.toLowerCase` (ASCII case folding). -/
def jsToLowerCase (s : String) : String :=
  String.mk (s.data.map Char.toLower)

/-- Leading-segment test on character lists: `listStartsWith l pre` is true
when `pre` is an initial segment of `l`. -/
def listStartsWith : List Char → List Char → Bool
  | _, [] => true
  | [], _ :: _ => false
  | a :: as, b :: bs => a = b && listStartsWith as bs

/-- Substring test on character lists: true when the second list occurs
contiguously inside the first. -/
def listContainsSub : List Char → List Char → Bool
  | [], ns => ns.isEmpty
  | h :: t, ns => listStartsWith (h :: t) ns || listContainsSub t ns

/-- JavaScript `haystack.includes(needle)`: substring containment. -/
def jsIncludes (haystack needle : String) : Bool :=
  listContainsSub haystack.data needle.data

/-- Predicate `hasRealL1Changes` from the optimizer page: false for a missing or
empty list, otherwise true unless every entry contains the sentinel phrase
case-insensitively. -/
def hasRealL1Changes (changes : List String) : Bool :=
  if changes.isEmpty then false
  else !(changes.all fun c => jsIncludes (jsToLowerCase c) NO_CHANGE_SENTINEL)

/-- The derived boolean `alreadyOptimal` of the optimizer page:
`!!(result?.l1_changes?.length && !realL1Changes)`. -/
def alreadyOptimal (changes : List String) : Bool :=
  !changes.isEmpty && !hasRealL1Changes changes

/-! ### Session hydrator (optimizer page, networked variant)

The load-session effect of the optimizer page reads the `session` query
parameter, then the single hydration slot `opticode_open_session`; on an
id match it copies the slot into the page state and removes the slot. -/

/-- The session object stored in the hydration slot.  Every field may be
absent in the stored JSON; the analysis payloads are kept abstract as
strings since the effect only copies them through. -/
structure HydrationSession where
  id : Option String
  name : Option String
  original_code : Option String
  original_analysis : Option String
  optimized_analysis : Option String
  optimized_code : Option String
deriving DecidableEq, Repr

/-- A raw hydration-slot payload: either parses to a session object or
makes `JSON.parse` throw (which the effect catches and ignores). -/
inductive SlotPayload where
  | wellFormed (s : HydrationSession)
  | malformed (raw : String)
deriving DecidableEq, Repr

/-- The page state the hydration effect assigns. -/
structure PageState where
  userCode : String
  projectName : String
  tempName : String
  savedSessionId : Option String
  resultLoaded : Bool
deriving DecidableEq, Repr

/-- JavaScript truthiness of an optional string value: absent and the
empty string are falsy. -/
def jsStrTruthy (x : Option String) : Bool :=
  match x with
  | none => false
  | some s => s ≠ ""

/-- The mount effect of the optimizer page: given the `session` URL
parameter and the current hydration slot, returns the updated page state
and the slot left behind.  Mirrors the `useEffect` body:
`if (!sessionParam) return` bails on an absent OR empty parameter
(falsiness), an absent slot bails, parse failures are swallowed, and the
state is hydrated and the slot cleared only when the stored id matches the
URL id; `setResult` runs only when `session.original_analysis` is truthy. -/
def loadSessionEffect (sessionParam : Option String) (slot : Option SlotPayload)
    (pg : PageState) : PageState × Option SlotPayload :=
  match sessionParam with
  | none => (pg, slot)
  | some sid =>
    if sid = "" then (pg, slot)
    else
      match slot with
      | none => (pg, slot)
      | some (.malformed _) => (pg, slot)
      | some (.wellFormed session) =>
        if session.id = some sid then
          ({ userCode := jsStrOr session.original_code "",
             projectName := jsStrOr session.name "Loaded Session",
             tempName := jsStrOr session.name "Loaded Session",
             savedSessionId := session.id,
             resultLoaded := jsStrTruthy session.original_analysis }, none)
        else (pg, slot)

/-! ### Helper lemmas about the Map model -/

/-- Looking a key up after a `Map.set`: the inserted value for the inserted
key, the previous contents for any other key. -/
theorem AssocMap.get_insert (m : AssocMap) (k k2 : Option String)
    (v : OptimizationResult) :
    (m.insert k v).get k2 = if k = k2 then some v else m.get k2 := by
  unfold AssocMap.insert AssocMap.get
  by_cases hany : (m.any fun p => decide (p.1 = k)) = true
  · rw [if_pos hany]
    rw [List.find?_map]
    have hpred : ((fun p : Option String × OptimizationResult => decide (p.1 = k2)) ∘
        fun p : Option String × OptimizationResult =>
          if p.1 = k then (k, v) else p) =
        fun p : Option String × OptimizationResult => decide (p.1 = k2) := by
      funext p
      by_cases hp : p.1 = k
      · simp [hp]
      · simp [hp]
    by_cases hk : k = k2
    · subst hk
      rcases List.any_eq_true.mp hany with ⟨a, hmem, ha⟩
      have ha' : a.1 = k := of_decide_eq_true ha
      rw [hpred]
      rcases hfind : List.find? (fun p : Option String × OptimizationResult =>
          decide (p.1 = k)) m with _ | b
      · exact absurd (List.find?_eq_none.mp hfind a hmem) (by simp [ha'])
      · have hb' := @List.find?_some (Option String × OptimizationResult)
          (fun p => decide (p.1 = k)) b m hfind
        have hb : b.1 = k := of_decide_eq_true hb'
        simp [hfind, hb]
    · rw [hpred]
      simp only [hk, if_false]
      rcases hfind : List.find? (fun p : Option String × OptimizationResult =>
          decide (p.1 = k2)) m with _ | b
      · simp
      · have hb' := @List.find?_some (Option String × OptimizationResult)
          (fun p => decide (p.1 = k2)) b m hfind
        have hb : b.1 = k2 := of_decide_eq_true hb'
        have hbk : ¬b.1 = k := by
          rw [hb]
          exact fun hEq => hk hEq.symm
        simp [hbk]
  · rw [if_neg hany]
    rw [List.find?_append]
    have hnone : ∀ x ∈ m, ¬(decide (x.1 = k) = true) :=
      List.any_eq_false.mp (Bool.eq_false_iff.mpr hany)
    by_cases hk : k = k2
    · subst hk
      have : List.find? (fun p : Option String × OptimizationResult =>
          decide (p.1 = k)) m = none :=
        List.find?_eq_none.mpr hnone
      simp [this, List.find?]
    · simp [List.find?, hk, Option.or_none]

/-- Running the `Map` construction over a list and reading one key gives
the last matching element of the list, falling back to the initial map. -/
theorem get_buildMapFold (l : List OptimizationResult) :
    ∀ (m : AssocMap) (k : Option String),
      (l.foldl (fun acc item => acc.insert item.id item) m).get k =
        (l.reverse.find? fun r => decide (r.id = k)).or (m.get k) := by
  induction l with
  | nil => intro m k; simp
  | cons it t ih =>
    intro m k
    simp only [List.foldl_cons, List.reverse_cons, List.find?_append, ih,
      Option.or_assoc]
    rw [AssocMap.get_insert]
    by_cases hk : it.id = k
    · simp [List.find?, hk]
    · simp [List.find?, hk]

/-- Characterisation of `mockDb.getById`: the lookup returns the LAST
element of `history ++ saved` whose id matches — so when both collections
contain the id, the library (saved) copy wins. -/
theorem getById_eq_find (st : StoreState) (i : String) :
    getById st i =
      (st.saved.reverse ++ st.history.reverse).find? fun r => decide (r.id = some i) := by
  unfold getById buildMap
  rw [get_buildMapFold]
  simp [AssocMap.get, List.reverse_append]

/-! ### Concrete fixtures for witnesses and counterexamples -/

/-- Sample metrics payload for fixture records. -/
def sampleMetrics : CodeMetrics :=
  { cyclomaticComplexity := 3, linesOfCode := 10, maintainabilityIndex := 70,
    estimatedSpeedup := "2x" }

/-- Fixture record with a chosen id and name. -/
def sampleRecord (i n : Option String) : OptimizationResult :=
  { originalCode := "print(1)", optimizedCode := "print(1)",
    explanation := "sample", metrics := sampleMetrics, changes := [],
    level := .LEVEL_1, timestamp := 1, id := i, name := n }

/-! ### Claim theorems -/

/-- Claim C1: after `renameSession(id, "X")` (`mockDb.updateProjectName`),
every record with that id in either collection has the new name; records
holding other ids keep their position and contents; and when neither
collection contains the id the store is left unchanged (the operation is a
total function of the decoded store, so it cannot throw). -/
theorem updateProjectName_rename_propagation (st : StoreState) (i nm : String) :
    (∀ r ∈ (updateProjectName st i nm).history, r.id = some i → r.name = some nm) ∧
    (∀ r ∈ (updateProjectName st i nm).saved, r.id = some i → r.name = some nm) ∧
    (∀ j : Nat, ∀ r, st.history[j]? = some r → r.id ≠ some i →
      (updateProjectName st i nm).history[j]? = some r) ∧
    (∀ j : Nat, ∀ r, st.saved[j]? = some r → r.id ≠ some i →
      (updateProjectName st i nm).saved[j]? = some r) ∧
    ((∀ r ∈ st.history, r.id ≠ some i) → (∀ r ∈ st.saved, r.id ≠ some i) →
      updateProjectName st i nm = st) := by
  have hname : ∀ (l : List OptimizationResult),
      ∀ r ∈ l.map (fun item =>
        if item.id = some i then { item with name := some nm } else item),
        r.id = some i → r.name = some nm := by
    intro l r hr hid
    rcases List.mem_map.mp hr with ⟨x, _, hfx⟩
    by_cases hxid : x.id = some i
    · rw [if_pos hxid] at hfx
      rw [← hfx]
    · rw [if_neg hxid] at hfx
      rw [← hfx] at hid
      exact absurd hid hxid
  have hpos : ∀ (l : List OptimizationResult), ∀ j : Nat, ∀ r, l[j]? = some r →
      r.id ≠ some i →
      (l.map (fun item =>
        if item.id = some i then { item with name := some nm } else item))[j]?
        = some r := by
    intro l j r hj hid
    rw [List.getElem?_map, hj]
    simp [if_neg hid]
  have hnoop : ∀ (l : List OptimizationResult), (∀ r ∈ l, r.id ≠ some i) →
      l.map (fun item =>
        if item.id = some i then { item with name := some nm } else item) = l := by
    intro l hl
    have : ∀ a ∈ l, (fun item =>
        if item.id = some i then { item with name := some nm } else item) a = id a := by
      intro a ha
      simp [if_neg (hl a ha)]
    rw [List.map_congr_left this, List.map_id]
  refine ⟨hname st.history, hname st.saved, hpos st.history, hpos st.saved, ?_⟩
  intro h1 h2
  cases st with
  | mk h s =>
    unfold updateProjectName
    simp only [StoreState.mk.injEq]
    exact ⟨hnoop h h1, hnoop s h2⟩

/-- Concrete instance of claim C1: renaming an id that is absent from both
collections leaves the store unchanged. -/
theorem updateProjectName_rename_propagation_witness :
    updateProjectName ⟨[sampleRecord (some "b") (some "keep")], []⟩ "a" "X"
      = ⟨[sampleRecord (some "b") (some "keep")], []⟩ :=
  (updateProjectName_rename_propagation _ "a" "X").2.2.2.2 (by decide) (by decide)

/-- Claim C2: `saveToLibrary` (`mockDb.saveToProfile`) is idempotent.  On
any library holding at most one entry for `r.id` (the identity-uniqueness
invariant of the data model, maintained by every store operation), calling
it twice leaves exactly one entry with that id, and the second call
changes nothing. -/
theorem saveToProfile_idempotent (st : StoreState) (r : OptimizationResult)
    (h : st.saved.countP (fun it => decide (it.id = r.id)) ≤ 1) :
    saveToProfile r (saveToProfile r st) = saveToProfile r st ∧
    (saveToProfile r (saveToProfile r st)).saved.countP
      (fun it => decide (it.id = r.id)) = 1 := by
  rcases hfind : st.saved.find? (fun item => decide (item.id = r.id)) with _ | a
  · have h1 : saveToProfile r st = { st with saved := r :: st.saved } := by
      unfold saveToProfile
      rw [hfind]
      rfl
    have hfind2 : ((r :: st.saved).find? fun item => decide (item.id = r.id))
        = some r := by
      simp [List.find?]
    have h2 : saveToProfile r { st with saved := r :: st.saved }
        = { st with saved := r :: st.saved } := by
      unfold saveToProfile
      simp only [hfind2, Option.isSome_some, if_true]
    have hzero : st.saved.countP (fun it => decide (it.id = r.id)) = 0 :=
      List.countP_eq_zero.mpr (List.find?_eq_none.mp hfind)
    constructor
    · rw [h1, h2, ← h1]
    · rw [h1, h2]
      simp [List.countP_cons, hzero]
  · have h1 : saveToProfile r st = st := by
      unfold saveToProfile
      rw [hfind]
      rfl
    have hmem := List.mem_of_find?_eq_some hfind
    have hPa := @List.find?_some _ (fun item => decide (item.id = r.id)) a _ hfind
    have hpos : 0 < st.saved.countP (fun it => decide (it.id = r.id)) :=
      List.countP_pos_iff.mpr ⟨a, hmem, hPa⟩
    refine ⟨by rw [h1, h1], ?_⟩
    rw [h1, h1]
    omega

/-- Concrete instance of claim C2: saving the same record twice into an
empty library yields exactly one entry for its id and the second call is a
no-op. -/
theorem saveToProfile_idempotent_witness :
    saveToProfile (sampleRecord (some "a") none)
        (saveToProfile (sampleRecord (some "a") none) ⟨[], []⟩)
      = saveToProfile (sampleRecord (some "a") none) ⟨[], []⟩ ∧
    (saveToProfile (sampleRecord (some "a") none)
        (saveToProfile (sampleRecord (some "a") none) ⟨[], []⟩)).saved.countP
      (fun it => decide (it.id = (sampleRecord (some "a") none).id)) = 1 :=
  saveToProfile_idempotent ⟨[], []⟩ (sampleRecord (some "a") none) (by decide)

/-- Nodup ids bound the number of library entries per id: on a collection
whose ids are pairwise distinct, at most one entry matches any key.  This
connects the idempotence hypothesis to the identity-uniqueness invariant
of the data model. -/
theorem countP_id_le_one_of_nodup (l : List OptimizationResult) (k : Option String)
    (h : (l.map (fun r => r.id)).Nodup) :
    l.countP (fun it => decide (it.id = k)) ≤ 1 := by
  induction l with
  | nil => simp
  | cons a t ih =>
    rw [List.map_cons, List.nodup_cons] at h
    rcases h with ⟨hna, ht⟩
    rw [List.countP_cons]
    by_cases hk : a.id = k
    · have hz : t.countP (fun it => decide (it.id = k)) = 0 := by
        apply List.countP_eq_zero.mpr
        intro b hb hbk
        have hbk' : b.id = k := of_decide_eq_true hbk
        exact hna (List.mem_map.mpr ⟨b, hb, by rw [hbk', hk]⟩)
      simp [hz, hk]
    · have := ih ht
      rw [if_neg (by simp [hk])]
      omega

/-- Every store operation preserves distinctness of the library ids, so
the idempotence hypothesis holds for every store reachable from an empty
one. -/
theorem saved_ids_nodup_preserved (st : StoreState)
    (h : (st.saved.map (fun r => r.id)).Nodup) (gen : String)
    (d : OptimizationResult) (i nm : String) :
    ((saveToHistory gen d st).2.saved.map (fun r => r.id)).Nodup ∧
    ((saveToProfile d st).saved.map (fun r => r.id)).Nodup ∧
    ((updateProjectName st i nm).saved.map (fun r => r.id)).Nodup ∧
    ((deleteSnippet st i).saved.map (fun r => r.id)).Nodup := by
  refine ⟨h, ?_, ?_, ?_⟩
  · rcases hfind : st.saved.find? (fun item => decide (item.id = d.id)) with _ | a
    · have h1 : saveToProfile d st = { st with saved := d :: st.saved } := by
        unfold saveToProfile
        rw [hfind]
        rfl
      rw [h1]
      simp only [List.map_cons, List.nodup_cons]
      refine ⟨?_, h⟩
      intro hmem
      rcases List.mem_map.mp hmem with ⟨b, hb, hbid⟩
      exact absurd (decide_eq_true hbid) (List.find?_eq_none.mp hfind b hb)
    · have h1 : saveToProfile d st = st := by
        unfold saveToProfile
        rw [hfind]
        rfl
      rw [h1]
      exact h
  · have hids : (updateProjectName st i nm).saved.map (fun r => r.id)
        = st.saved.map (fun r => r.id) := by
      unfold updateProjectName
      rw [List.map_map]
      apply List.map_congr_left
      intro a _
      by_cases ha : a.id = some i
      · simp [ha]
      · simp [ha]
    rw [hids]
    exact h
  · exact List.Nodup.sublist
      (List.Sublist.map (fun r => r.id) (List.filter_sublist st.saved)) h

/-- Fixture: the copy of session `dup` kept in the history collection. -/
def historyCopy : OptimizationResult :=
  sampleRecord (some "dup") (some "history-name")

/-- Fixture: a diverged copy of session `dup` kept in the library. -/
def libraryCopy : OptimizationResult :=
  sampleRecord (some "dup") (some "library-name")

/-- Fixture store holding diverged copies of the same id in both
collections. -/
def collisionStore : StoreState :=
  { history := [historyCopy], saved := [libraryCopy] }

/-- Claim C3 counterexample: when both collections hold a record with the
queried id, `mockDb.getById` returns the LIBRARY copy, not the history
copy — the `Map` is built history-first, so the later library entry
overwrites it. -/
theorem getById_history_wins_counterexample :
    getById collisionStore "dup" = some libraryCopy ∧
    getById collisionStore "dup" ≠ some historyCopy ∧
    historyCopy ∈ collisionStore.history ∧
    historyCopy.id = some "dup" ∧
    libraryCopy ∈ collisionStore.saved ∧
    libraryCopy ≠ historyCopy := by
  refine ⟨by decide, by decide, by decide, by decide, by decide, by decide⟩

/-- Claim C3 (amended): `getById` returns at most one record — the record
with the queried id from the union of the two collections, or `none` when
neither collection contains it — and on a collision the LIBRARY copy wins
(the returned record is one stored in the library). -/
theorem getById_unique_library_wins (st : StoreState) (i : String) :
    (∀ r1 r2, getById st i = some r1 → getById st i = some r2 → r1 = r2) ∧
    (getById st i = none ↔
      ((∀ r ∈ st.history, r.id ≠ some i) ∧ (∀ r ∈ st.saved, r.id ≠ some i))) ∧
    (∀ r, getById st i = some r → r.id = some i ∧ (r ∈ st.history ∨ r ∈ st.saved)) ∧
    ((∃ r ∈ st.saved, r.id = some i) →
      ∃ r ∈ st.saved, r.id = some i ∧ getById st i = some r) := by
  refine ⟨?_, ?_, ?_, ?_⟩
  · intro r1 r2 h1 h2
    rw [h1] at h2
    exact Option.some.inj h2
  · rw [getById_eq_find, List.find?_eq_none]
    constructor
    · intro hall
      constructor
      · intro r hr hid
        have := hall r (List.mem_append.mpr (Or.inr (List.mem_reverse.mpr hr)))
        simp [hid] at this
      · intro r hr hid
        have := hall r (List.mem_append.mpr (Or.inl (List.mem_reverse.mpr hr)))
        simp [hid] at this
    · rintro ⟨hh, hs⟩ x hx
      rcases List.mem_append.mp hx with hx1 | hx2
      · simp [hs x (List.mem_reverse.mp hx1)]
      · simp [hh x (List.mem_reverse.mp hx2)]
  · intro r hr
    rw [getById_eq_find] at hr
    have hPr := @List.find?_some _ (fun q => decide (q.id = some i)) r _ hr
    have hmem := List.mem_of_find?_eq_some hr
    refine ⟨of_decide_eq_true hPr, ?_⟩
    rcases List.mem_append.mp hmem with hm | hm
    · exact Or.inr (List.mem_reverse.mp hm)
    · exact Or.inl (List.mem_reverse.mp hm)
  · rintro ⟨a, ha, haid⟩
    have hsome : ((st.saved.reverse.find? fun q => decide (q.id = some i)).isSome)
        = true := by
      rw [List.find?_isSome]
      exact ⟨a, List.mem_reverse.mpr ha, by simp [haid]⟩
    rcases hfb : st.saved.reverse.find? fun q => decide (q.id = some i) with _ | b
    · rw [hfb] at hsome
      cases hsome
    · have hbP := @List.find?_some _ (fun q => decide (q.id = some i)) b _ hfb
      refine ⟨b, List.mem_reverse.mp (List.mem_of_find?_eq_some hfb),
        of_decide_eq_true hbP, ?_⟩
      rw [getById_eq_find, List.find?_append, hfb]
      rfl

/-- Concrete instance of claim C3 (amended): on the collision fixture the
lookup yields the library copy. -/
theorem getById_unique_library_wins_witness :
    getById collisionStore "dup" = some libraryCopy := by
  rcases (getById_unique_library_wins collisionStore "dup").2.2.2
      ⟨libraryCopy, by decide, by decide⟩ with ⟨r, hr, _, heq⟩
  have hr' : r = libraryCopy := by
    have : r ∈ [libraryCopy] := hr
    simpa using this
  rw [hr'] at heq
  exact heq

/-- Claim C4: `deleteSession` (`mockDb.deleteSnippet`) is total and
idempotent: afterwards the id is absent from both listings and `getById`
returns `none`; deleting an id absent from both collections leaves the
store unchanged (and, being a total function, raises no error). -/
theorem deleteSnippet_total (st : StoreState) (i : String) :
    (∀ r ∈ (deleteSnippet st i).history, r.id ≠ some i) ∧
    (∀ r ∈ (deleteSnippet st i).saved, r.id ≠ some i) ∧
    getById (deleteSnippet st i) i = none ∧
    ((∀ r ∈ st.history, r.id ≠ some i) → (∀ r ∈ st.saved, r.id ≠ some i) →
      deleteSnippet st i = st) := by
  have habs : ∀ (l : List OptimizationResult),
      ∀ r ∈ l.filter (fun item => decide (item.id ≠ some i)), r.id ≠ some i := by
    intro l r hr
    exact of_decide_eq_true (List.mem_filter.mp hr).2
  refine ⟨habs st.history, habs st.saved, ?_, ?_⟩
  · rw [getById_eq_find, List.find?_eq_none]
    intro x hx
    rcases List.mem_append.mp hx with hm | hm
    · simp [habs st.saved x (List.mem_reverse.mp hm)]
    · simp [habs st.history x (List.mem_reverse.mp hm)]
  · intro h1 h2
    cases st with
    | mk h s =>
      unfold deleteSnippet
      simp only [StoreState.mk.injEq]
      constructor
      · exact List.filter_eq_self.mpr (fun a ha => decide_eq_true (h1 a ha))
      · exact List.filter_eq_self.mpr (fun a ha => decide_eq_true (h2 a ha))

/-- Concrete instance of claim C4: deleting an absent id is a no-op. -/
theorem deleteSnippet_total_witness :
    deleteSnippet ⟨[sampleRecord (some "b") none], []⟩ "a"
      = ⟨[sampleRecord (some "b") none], []⟩ :=
  (deleteSnippet_total _ "a").2.2.2 (by decide) (by decide)

/-- Fixture raw store whose two payloads are corrupt JSON. -/
def corruptStore : RawStore :=
  { history := some (.malformed "not valid json"),
    saved := some (.malformed "also corrupt") }

/-- Claim C5 counterexample: a malformed persisted payload does NOT read
as the empty collection — `JSON.parse` throws and the read path has no
try/catch, so the parse failure propagates to the caller. -/
theorem malformed_read_counterexample :
    rawGetHistory corruptStore = .error "SyntaxError while parsing not valid json" ∧
    rawGetHistory corruptStore ≠ .ok [] ∧
    rawGetSavedSnippets corruptStore ≠ .ok [] := by
  refine ⟨rfl, fun h => ?_, fun h => ?_⟩
  · exact Except.noConfusion h
  · exact Except.noConfusion h

/-- Claim C5 (amended): an absent payload under either collection key
reads as the empty sequence (never "not found") and so does a stored
empty string, since the `rawData ?` guard is a falsiness check; a
well-formed payload reads as its decoded records; and a present non-empty
payload that is not valid JSON makes the read propagate a parse failure
to the caller. -/
theorem raw_read_spec (st : RawStore) :
    (st.history = none → rawGetHistory st = .ok []) ∧
    (∀ l, st.history = some (.wellFormed l) → rawGetHistory st = .ok l) ∧
    (st.history = some (.malformed "") → rawGetHistory st = .ok []) ∧
    (∀ s, st.history = some (.malformed s) → s ≠ "" →
      rawGetHistory st = .error ("SyntaxError while parsing " ++ s)) ∧
    (st.saved = none → rawGetSavedSnippets st = .ok []) ∧
    (∀ l, st.saved = some (.wellFormed l) → rawGetSavedSnippets st = .ok l) ∧
    (st.saved = some (.malformed "") → rawGetSavedSnippets st = .ok []) ∧
    (∀ s, st.saved = some (.malformed s) → s ≠ "" →
      rawGetSavedSnippets st = .error ("SyntaxError while parsing " ++ s)) := by
  refine ⟨?_, ?_, ?_, ?_, ?_, ?_, ?_, ?_⟩
  · intro h
    unfold rawGetHistory
    rw [h]
  · intro l h
    unfold rawGetHistory
    rw [h]
    rfl
  · intro h
    unfold rawGetHistory
    rw [h]
    rfl
  · intro s h hs
    unfold rawGetHistory
    rw [h]
    show (if payloadTruthy (.malformed s) then jsonParse (.malformed s)
      else Except.ok []) = _
    rw [if_pos (by simp [payloadTruthy, hs])]
    rfl
  · intro h
    unfold rawGetSavedSnippets
    rw [h]
  · intro l h
    unfold rawGetSavedSnippets
    rw [h]
    rfl
  · intro h
    unfold rawGetSavedSnippets
    rw [h]
    rfl
  · intro s h hs
    unfold rawGetSavedSnippets
    rw [h]
    show (if payloadTruthy (.malformed s) then jsonParse (.malformed s)
      else Except.ok []) = _
    rw [if_pos (by simp [payloadTruthy, hs])]
    rfl

/-- Concrete instance of claim C5 (amended): an empty raw store reads as
the empty history. -/
theorem raw_read_spec_witness :
    rawGetHistory { history := none, saved := none } = .ok [] :=
  (raw_read_spec { history := none, saved := none }).1 rfl

/-- Claim C6: `saveToHistory` keeps a present (non-empty) id and otherwise
uses the generated token, defaults the name to `"Session-<id>"` exactly
when the name is absent or blank, prepends the finalized record to the
history collection without deduplicating, leaves the library untouched,
and returns the finalized record (the first component).  The
collision-resistant random token is the `gen` parameter; the hypothesis
reflects that ids in the data model are non-empty generated tokens. -/
theorem saveToHistory_spec (gen : String) (data : OptimizationResult)
    (st : StoreState) (hid : data.id ≠ some "") :
    (saveToHistory gen data st).2.history
      = (saveToHistory gen data st).1 :: st.history ∧
    (saveToHistory gen data st).2.saved = st.saved ∧
    (data.id = none → (saveToHistory gen data st).1.id = some gen) ∧
    (∀ s, data.id = some s → (saveToHistory gen data st).1.id = some s) ∧
    (∀ s, (saveToHistory gen data st).1.id = some s →
      (data.name = none ∨ data.name = some "") →
      (saveToHistory gen data st).1.name = some ("Session-" ++ s)) ∧
    (∀ s, data.name = some s → s ≠ "" →
      (saveToHistory gen data st).1.name = some s) ∧
    (saveToHistory gen data st).1.originalCode = data.originalCode ∧
    (saveToHistory gen data st).1.optimizedCode = data.optimizedCode ∧
    (saveToHistory gen data st).1.explanation = data.explanation ∧
    (saveToHistory gen data st).1.metrics = data.metrics ∧
    (saveToHistory gen data st).1.changes = data.changes ∧
    (saveToHistory gen data st).1.level = data.level ∧
    (saveToHistory gen data st).1.timestamp = data.timestamp := by
  refine ⟨rfl, rfl, ?_, ?_, ?_, ?_, rfl, rfl, rfl, rfl, rfl, rfl, rfl⟩
  · intro h
    simp [saveToHistory, jsStrOr, h]
  · intro s h
    have hs : s ≠ "" := fun he => hid (by rw [h, he])
    simp [saveToHistory, jsStrOr, h, hs]
  · intro s hres hname
    have hidval : jsStrOr data.id gen = s := by
      have hsome : some (jsStrOr data.id gen) = some s := hres
      exact Option.some.inj hsome
    have hn : (saveToHistory gen data st).1.name
        = some (jsStrOr data.name ("Session-" ++ jsStrOr data.id gen)) := rfl
    rw [hn, hidval]
    rcases hname with h | h
    · rw [h]
      rfl
    · rw [h]
      rfl
  · intro s h hs
    simp [saveToHistory, jsStrOr, h, hs]

/-- Concrete instance of claim C6: a record without an id gets the
generated token as its id. -/
theorem saveToHistory_spec_witness :
    (saveToHistory "tok1234" (sampleRecord none none) ⟨[], []⟩).1.id
      = some "tok1234" :=
  (saveToHistory_spec "tok1234" (sampleRecord none none) ⟨[], []⟩
    (by decide)).2.2.1 rfl

/-- Claim C7: sentinel classification.  The list holding only the sentinel
phrase counts as no real rule-based change and as "already optimal"; a
list with a genuine change counts as a real change and not already
optimal; and in general `alreadyOptimal` holds exactly when the change
list is non-empty and `hasRealL1Changes` is false. -/
theorem sentinel_classification :
    hasRealL1Changes ["No rule-based optimizations applicable"] = false ∧
    alreadyOptimal ["No rule-based optimizations applicable"] = true ∧
    hasRealL1Changes ["Replaced manual loop with built-in sum"] = true ∧
    alreadyOptimal ["Replaced manual loop with built-in sum"] = false ∧
    (∀ changes : List String,
      alreadyOptimal changes = true ↔
        changes ≠ [] ∧ hasRealL1Changes changes = false) := by
  refine ⟨by decide, by decide, by decide, by decide, ?_⟩
  intro changes
  simp [alreadyOptimal, Bool.and_eq_true, Bool.not_eq_true',
    List.isEmpty_eq_false]

/-- Concrete instance of claim C7: the general characterisation of
`alreadyOptimal` evaluated at the sentinel list. -/
theorem sentinel_classification_witness :
    alreadyOptimal ["No rule-based optimizations applicable"] = true ↔
      (["No rule-based optimizations applicable"] : List String) ≠ [] ∧
        hasRealL1Changes ["No rule-based optimizations applicable"] = false :=
  sentinel_classification.2.2.2.2 ["No rule-based optimizations applicable"]

/-- Claim C8: hydration is consume-once with a silent fallback.  When the
slot holds a session whose id equals the truthy (non-empty) `session`
parameter of the URL, the first mount copies the slot into the page state
(code, names, saved id, analysis flag via JS truthiness) and clears the
slot, so a second mount with no new write finds no slot and changes
nothing; an absent slot, a mismatched id, a corrupt slot, or a missing or
empty (falsy) URL parameter all hydrate nothing, clear nothing and raise
no error. -/
theorem loadSession_consume_once (sid : String) (s : HydrationSession)
    (pg : PageState) (hsid : sid ≠ "") (hmatch : s.id = some sid) :
    (loadSessionEffect (some sid) (some (.wellFormed s)) pg).2 = none ∧
    (loadSessionEffect (some sid) (some (.wellFormed s)) pg).1.userCode
      = jsStrOr s.original_code "" ∧
    (loadSessionEffect (some sid) (some (.wellFormed s)) pg).1.projectName
      = jsStrOr s.name "Loaded Session" ∧
    (loadSessionEffect (some sid) (some (.wellFormed s)) pg).1.tempName
      = jsStrOr s.name "Loaded Session" ∧
    (loadSessionEffect (some sid) (some (.wellFormed s)) pg).1.savedSessionId
      = some sid ∧
    (loadSessionEffect (some sid) (some (.wellFormed s)) pg).1.resultLoaded
      = jsStrTruthy s.original_analysis ∧
    (loadSessionEffect (some sid)
        (loadSessionEffect (some sid) (some (.wellFormed s)) pg).2
        (loadSessionEffect (some sid) (some (.wellFormed s)) pg).1)
      = ((loadSessionEffect (some sid) (some (.wellFormed s)) pg).1, none) ∧
    (∀ slot : Option SlotPayload, loadSessionEffect none slot pg = (pg, slot)) ∧
    (∀ slot : Option SlotPayload, loadSessionEffect (some "") slot pg = (pg, slot)) ∧
    loadSessionEffect (some sid) none pg = (pg, none) ∧
    (∀ raw, loadSessionEffect (some sid) (some (.malformed raw)) pg
      = (pg, some (.malformed raw))) ∧
    (∀ s2 : HydrationSession, s2.id ≠ some sid →
      loadSessionEffect (some sid) (some (.wellFormed s2)) pg
        = (pg, some (.wellFormed s2))) := by
  have hfirst : loadSessionEffect (some sid) (some (.wellFormed s)) pg
      = ({ userCode := jsStrOr s.original_code "",
           projectName := jsStrOr s.name "Loaded Session",
           tempName := jsStrOr s.name "Loaded Session",
           savedSessionId := s.id,
           resultLoaded := jsStrTruthy s.original_analysis }, none) := by
    simp only [loadSessionEffect]
    rw [if_neg hsid, if_pos hmatch]
  have hnone : ∀ q : PageState, loadSessionEffect (some sid) none q = (q, none) := by
    intro q
    simp only [loadSessionEffect]
    rw [if_neg hsid]
  refine ⟨?_, ?_, ?_, ?_, ?_, ?_, ?_, ?_, ?_, hnone pg, ?_, ?_⟩
  · rw [hfirst]
  · rw [hfirst]
  · rw [hfirst]
  · rw [hfirst]
  · rw [hfirst]
    exact hmatch
  · rw [hfirst]
  · rw [hfirst]
    exact hnone _
  · intro slot
    rfl
  · intro slot
    simp [loadSessionEffect]
  · intro raw
    simp only [loadSessionEffect]
    rw [if_neg hsid]
  · intro s2 h2
    simp only [loadSessionEffect]
    rw [if_neg hsid, if_neg h2]

/-- Fixture hydration session matching url id `s1`. -/
def exSession : HydrationSession :=
  { id := some "s1", name := some "My Fix", original_code := some "print(2)",
    original_analysis := some "analysis", optimized_analysis := none,
    optimized_code := none }

/-- Fixture page state before hydration. -/
def exPage : PageState :=
  { userCode := "starter", projectName := "New Session",
    tempName := "New Session", savedSessionId := none, resultLoaded := false }

/-- Concrete instance of claim C8: hydrating the fixture slot clears it. -/
theorem loadSession_consume_once_witness :
    (loadSessionEffect (some "s1") (some (.wellFormed exSession)) exPage).2
      = none :=
  (loadSession_consume_once "s1" exSession exPage (by decide) (by decide)).1

end Opticode
